import Mathlib

/- Verification development for the git/WebContainer bridge: the `useGit`
   hook, its filesystem adapter (`getFs`), and the `pathUtils` path algebra.
   JavaScript strings are modelled as Lean `String`; values that may be
   `undefined`/`null` are modelled as `Option`; thrown errors are modelled
   with `Except`. -/

/-- Single-quote character, kept as a named constant for error messages. -/
def squote : String := "\x27"

/-- JavaScript template-literal rendering of a possibly-undefined value. -/
def jsStr : Option String → String
  | none => "undefined"
  | some s => s

/-- Split a character list at every slash, as String.prototype.split with
    separator slash does: empty segments are kept. -/
def splitSegs : List Char → List Char → List (List Char)
  | [], acc => [acc.reverse]
  | c :: rest, acc =>
    if c = '/' then acc.reverse :: splitSegs rest [] else splitSegs rest (c :: acc)

/-- JavaScript path.split with separator slash. -/
def jsSplit (p : String) : List String :=
  (splitSegs p.data []).map (fun cs => String.mk cs)

/-- JavaScript Array.prototype.join with a separator. -/
def joinSep (sep : String) : List String → String
  | [] => ""
  | [x] => x
  | x :: xs => x ++ sep ++ joinSep sep xs

/-- Removal of trailing slashes, as the regex replace of trailing separators
    used throughout pathUtils. -/
def stripTrailingSlashes (p : String) : String :=
  String.mk (p.data.reverse.dropWhile (fun c => c = '/')).reverse

/-- pathUtils.dirname from the source: returns "." when the path is empty or
    has no separator; otherwise strips trailing slashes, drops the final
    segment, and returns "/" when the remainder is empty. -/
def dirname (path : String) : String :=
  if path = "" ∨ path.data.contains '/' = false then "."
  else
    let p := stripTrailingSlashes path
    let dir := joinSep "/" ((jsSplit p).dropLast)
    if dir = "" then "/" else dir

/-- pathUtils.basename from the source: strips trailing slashes, takes the
    final segment, and removes a supplied non-empty extension suffix. -/
def basename (path : String) (ext : Option String) : String :=
  let p := stripTrailingSlashes path
  let base := ((jsSplit p).getLast?).getD ""
  match ext with
  | some e => if e ≠ "" ∧ base.endsWith e then base.dropRight e.length else base
  | none => base

/-- The normalizePathParts helper inside pathUtils.relative: strip trailing
    slashes, split at slashes, keep the non-empty segments. -/
def normalizePathParts (p : String) : List String :=
  (jsSplit (stripTrailingSlashes p)).filter (fun s => s != "")

/-- Length of the longest common prefix of two segment lists, as computed by
    the loop in pathUtils.relative (stops at the first mismatch, bounded by
    the shorter list). -/
def commonPrefixLen : List String → List String → Nat
  | a :: as, b :: bs => if a = b then commonPrefixLen as bs + 1 else 0
  | _, _ => 0

/-- pathUtils.relative from the source, including the initial guard that
    returns "." when either input is the empty string. -/
def relative (f t : String) : String :=
  if f = "" ∨ t = "" then "."
  else
    let fromParts := normalizePathParts f
    let toParts := normalizePathParts t
    let commonLength := commonPrefixLen fromParts toParts
    let upCount := fromParts.length - commonLength
    let remainingPath := toParts.drop commonLength
    let relativeParts := List.replicate upCount ".." ++ remainingPath
    if relativeParts = [] then "." else joinSep "/" relativeParts

/-- The algorithm the specification describes for relative: normalize both
    paths into their sequences of non-empty slash-separated segments
    (trailing separators removed), take the longest common prefix by segment
    equality, emit ".." once per remaining from-segment followed by the
    remaining to-segments joined by "/", and return "." when that sequence
    is empty.  It has no special case for empty inputs. -/
def relativeSpec (f t : String) : String :=
  let fromParts := normalizePathParts f
  let toParts := normalizePathParts t
  let commonLength := commonPrefixLen fromParts toParts
  let upCount := fromParts.length - commonLength
  let remainingPath := toParts.drop commonLength
  let relativeParts := List.replicate upCount ".." ++ remainingPath
  if relativeParts = [] then "." else joinSep "/" relativeParts

/-- A WriteLedger entry as recorded by the adapter writeFile: the data
    written and the optional encoding taken from the options. -/
structure LedgerEntry where
  data : String
  encoding : Option String
deriving DecidableEq

/-- The WriteLedger (fileData.current): a JavaScript object keyed by relative
    path, modelled as an association list with unique keys in insertion
    order. -/
abbrev Ledger := List (String × LedgerEntry)

/-- Keys of a ledger. -/
def ledgerKeys (l : Ledger) : List String := l.map Prod.fst

/-- Number of ledger entries stored under a key. -/
def countKey (l : Ledger) (k : String) : Nat := (ledgerKeys l).count k

/-- JavaScript object property assignment on the ledger: an existing key is
    overwritten in place, a fresh key is appended. -/
def ledgerInsert (l : Ledger) (k : String) (v : LedgerEntry) : Ledger :=
  if k ∈ ledgerKeys l then
    l.map (fun e => if e.1 = k then (k, v) else e)
  else
    l ++ [(k, v)]

/-- Lookup in a ledger. -/
def ledgerLookup : Ledger → String → Option LedgerEntry
  | [], _ => none
  | (k2, v) :: t, k => if k = k2 then some v else ledgerLookup t k

/-- The adapter writeFile effect on the ledger: record {data, encoding}
    under the path made relative to the working directory. -/
def writeFileLedger (workdir : String) (l : Ledger) (path data : String)
    (encoding : Option String) : Ledger :=
  ledgerInsert l (relative workdir path) { data := data, encoding := encoding }

/-- The filesystem-adapter operations the protocol engine may invoke. -/
inductive FsOp
  | readFile (path : String) (encoding : Option String)
  | writeFile (path : String) (data : String) (encoding : Option String)
  | mkdir (path : String)
  | readdir (path : String)
  | rm (path : String) (recursive : Option Bool)
  | rmdir (path : String) (recursive : Option Bool)
  | unlink (path : String)
  | stat (path : String)
  | lstat (path : String)
  | readlink (path : String)
  | symlink (target : String) (path : String)
  | chmod (path : String) (mode : Nat)
deriving DecidableEq

/-- Whether an adapter operation is a writeFile. -/
def FsOp.isWriteFile : FsOp → Bool
  | .writeFile _ _ _ => true
  | _ => false

/-- Effect of one adapter operation on the ledger: only writeFile records an
    entry (under the workdir-relative path); every other operation leaves
    the ledger unchanged. -/
def applyFsOp (workdir : String) (l : Ledger) : FsOp → Ledger
  | .writeFile path data encoding => writeFileLedger workdir l path data encoding
  | _ => l

/-- Ledger state after the protocol engine has invoked a sequence of adapter
    operations. -/
def runEngineOps (workdir : String) (ops : List FsOp) (l : Ledger) : Ledger :=
  ops.foldl (applyFsOp workdir) l

/-- gitPush and the ledger: gitPush itself never reads, resets or writes the
    ledger, so the ledger after a push is the prior ledger threaded through
    whatever adapter operations the engine invoked during the push. -/
def gitPushLedger (workdir : String) (l : Ledger) (engineOps : List FsOp) : Ledger :=
  runEngineOps workdir engineOps l

/-- Result of a successful clone: the working directory and a snapshot of
    the ledger. -/
structure CloneResult where
  workdir : String
  data : Ledger
deriving DecidableEq

/-- gitClone and the ledger: the ledger is reset to empty at the start
    (fileData.current = \x7b\x7d), the engine then invokes adapter operations;
    on success the caller receives the workdir with a snapshot of the
    ledger, on failure the underlying error is logged and rethrown.  The
    pair gives the caller-visible outcome and the ledger state afterwards.
    engineOps are the operations performed before the success/failure
    point. -/
def gitCloneModel (workdir : String) (_prevLedger : Ledger) (engineOps : List FsOp)
    (engineSucceeds : Bool) (engineError : String) :
    Except String CloneResult × Ledger :=
  let ledger := runEngineOps workdir engineOps []
  if engineSucceeds then (.ok { workdir := workdir, data := ledger }, ledger)
  else (.error engineError, ledger)

/-- A Node-style error as thrown by the adapter: the message is always set;
    code, errno, syscall and path are extra properties only set where the
    source assigns them. -/
structure ErrnoError where
  message : String
  code : Option String
  errno : Option Int
  syscall : Option String
  path : Option String
deriving DecidableEq

/-- A directory entry as returned by the sandbox readdir with file types. -/
structure DirEnt where
  name : String
  isFile : Bool
  isDirectory : Bool
deriving DecidableEq

/-- The stat object synthesized by the adapter from a directory entry. -/
structure SyntheticStat where
  isFile : Bool
  isDirectory : Bool
  isSymbolicLink : Bool
  size : Nat
  mode : Nat
  mtimeMs : Nat
  uid : Nat
  gid : Nat
deriving DecidableEq

/-- The stat ENOENT error built in the catch-all of the adapter stat: code
    ENOENT, errno -2, syscall stat, with the requested path echoed back in
    both the message and the path property. -/
def enoentStatError (path : String) : ErrnoError :=
  { message := "ENOENT: no such file or directory, stat " ++ squote ++ path ++ squote
    code := some "ENOENT"
    errno := some (-2)
    syscall := some "stat"
    path := some path }

/-- The synthetic stat returned for a found directory entry: file/directory
    flags from the entry, never a symbolic link, size 1, default mode 0o666,
    current time, uid/gid 1000. -/
def synthStat (fileInfo : DirEnt) (now : Nat) : SyntheticStat :=
  { isFile := fileInfo.isFile
    isDirectory := fileInfo.isDirectory
    isSymbolicLink := false
    size := 1
    mode := 0o666
    mtimeMs := now
    uid := 1000
    gid := 1000 }

/-- The adapter stat: translate the path relative to the working directory,
    list the parent directory through the sandbox (listDir models the
    sandbox readdir with file types, which may itself fail), look for the
    entry named like the basename, and synthesize a stat; every failure is
    caught and rethrown as the ENOENT stat error for the requested path. -/
def statImpl (listDir : String → Except String (List DirEnt)) (now : Nat)
    (workdir path : String) : Except ErrnoError SyntheticStat :=
  let relativePath := relative workdir path
  match listDir (dirname relativePath) with
  | .error _ => .error (enoentStatError path)
  | .ok resp =>
    match resp.find? (fun x => x.name == basename relativePath none) with
    | none => .error (enoentStatError path)
    | some fileInfo => .ok (synthStat fileInfo now)

/-- Options bag passed to rmdir, modelling only the property the spread can
    override: a recursive key that is present (some) or absent (none). -/
structure RmOptions where
  recursive : Option Bool
deriving DecidableEq

/-- The options object the adapter rmdir passes to the sandbox remove call:
    the JavaScript spread puts recursive true first and then copies the
    caller options over it, so a caller-supplied recursive key wins. -/
def rmdirSpreadOptions (options : Option RmOptions) : RmOptions :=
  { recursive := some ((options.bind (fun o => o.recursive)).getD true) }

/-- The sandbox remove call issued by the adapter rmdir: the translated
    relative path and the recursive flag after the spread. -/
structure SandboxRmCall where
  path : String
  recursive : Option Bool
deriving DecidableEq

/-- The adapter rmdir: translate the path and delegate to the sandbox
    remove with the spread options. -/
def rmdirCall (workdir path : String) (options : Option RmOptions) : SandboxRmCall :=
  { path := relative workdir path
    recursive := (rmdirSpreadOptions options).recursive }

/-- The adapter readlink: always throws a plain EINVAL-message error with no
    structured code/errno/syscall/path properties. -/
def readlinkImpl (path : String) : Except ErrnoError Unit :=
  .error { message := "EINVAL: invalid argument, readlink " ++ squote ++ path ++ squote
           code := none, errno := none, syscall := none, path := none }

/-- The adapter symlink: always throws a plain EPERM-message error with no
    structured code/errno/syscall/path properties (WebContainer has no
    symlinks). -/
def symlinkImpl (target path : String) : Except ErrnoError Unit :=
  .error { message := "EPERM: operation not permitted, symlink " ++ squote ++ target
              ++ squote ++ " -> " ++ squote ++ path ++ squote
           code := none, errno := none, syscall := none, path := none }

/-- The adapter chmod: a no-op that always resolves. -/
def chmodImpl (_path : String) (_mode : Nat) : Except ErrnoError Unit := .ok ()

/-- Code property of an adapter result, none on success. -/
def errCode : Except ErrnoError Unit → Option String
  | .error e => e.code
  | .ok _ => none

/-- A GitAuth credential as handled by the hook: username and password may
    each be missing (undefined from a destructured parse, or null from a
    cancelled prompt). -/
structure GitCred where
  username : Option String
  password : Option String
deriving DecidableEq

/-- Scan the body of a JSON string literal up to the closing double quote
    (no escape handling; the credential store never writes escapes). -/
def scanStringBody : List Char → List Char → Option (String × List Char)
  | [], _ => none
  | c :: rest, acc =>
    if c = '"' then some (String.mk acc.reverse, rest) else scanStringBody rest (c :: acc)

/-- Parse the members of a flat JSON object with string values, after the
    opening brace has been consumed. -/
def parseMembers : Nat → List Char → Option (List (String × String))
  | 0, _ => none
  | fuel + 1, cs =>
    match cs with
    | '"' :: rest =>
      match scanStringBody rest [] with
      | none => none
      | some (key, rest2) =>
        match rest2 with
        | ':' :: '"' :: rest3 =>
          match scanStringBody rest3 [] with
          | none => none
          | some (val, rest4) =>
            match rest4 with
            | ['}'] => some [(key, val)]
            | ',' :: rest5 =>
              match parseMembers fuel rest5 with
              | none => none
              | some tail => some ((key, val) :: tail)
            | _ => none
        | _ => none
    | _ => none

/-- Modelled from the builtin JSON.parse as the credential-store reader uses
    it, restricted to flat JSON objects with string values (the only shapes
    the store writes and the claims exercise): the empty object and objects
    of string key/value pairs parse to their field list, everything else is
    a parse failure (none). -/
def jsonParseObj (s : String) : Option (List (String × String)) :=
  match s.data with
  | '{' :: rest =>
    match rest with
    | ['}'] => some []
    | _ => parseMembers s.length rest
  | _ => none

/-- Host extraction used by the credential cache: the third slash-delimited
    segment of the URL (undefined when the URL has fewer segments). -/
def urlDomain (url : String) : Option String :=
  (jsSplit url).get? 2

/-- lookupSavedPassword from the source: read the cookie keyed by the URL
    domain (a missing or empty cookie yields null), parse it as JSON, and
    destructure username and password from the result; a parse failure is
    logged and yields null.  The cookie store is modelled as a function from
    cookie names to their optional values. -/
def lookupSavedPassword (cookies : String → Option String) (url : String) :
    Option GitCred :=
  let domain := urlDomain url
  match cookies ("git:" ++ jsStr domain) with
  | none => none
  | some gitCreds =>
    if gitCreds = "" then none
    else
      match jsonParseObj gitCreds with
      | none => none
      | some fields =>
        some { username := fields.lookup "username"
               password := fields.lookup "password" }

/-- The base64 alphabet digit for a 6-bit value. -/
def b64Digit (n : Nat) : Char :=
  "ABCDEFGHIJKLMNOPQRSTUVWXYZabcdefghijklmnopqrstuvwxyz0123456789+/".data.getD
    n (Char.ofNat 61)

/-- Standard base64 of a byte list, three bytes to four digits with padding,
    as Buffer.prototype.toString with base64 produces. -/
def base64Encode : List Nat → String
  | [] => ""
  | [a] =>
    String.mk [b64Digit (a / 4), b64Digit (a % 4 * 16), Char.ofNat 61, Char.ofNat 61]
  | [a, b] =>
    String.mk [b64Digit (a / 4), b64Digit (a % 4 * 16 + b / 16),
      b64Digit (b % 16 * 4), Char.ofNat 61]
  | a :: b :: c :: rest =>
    String.mk [b64Digit (a / 4), b64Digit (a % 4 * 16 + b / 16),
      b64Digit (b % 16 * 4 + c / 64), b64Digit (c % 64)]
      ++ base64Encode rest

/-- UTF-8 bytes of a string, as Buffer.from produces. -/
def strBytes (s : String) : List Nat :=
  s.toUTF8.toList.map (fun b => b.toNat)

/-- The Basic authorization header value computed eagerly by clone and pull
    from a cached credential: base64 of username colon password rendered as
    JavaScript templates render them. -/
def eagerAuthValue (auth : GitCred) : String :=
  "Basic " ++ base64Encode (strBytes (jsStr auth.username ++ ":" ++ jsStr auth.password))

/-- The optional Authorization header clone and pull attach before the
    engine call: present exactly when a cached credential was found. -/
def eagerAuthHeader (auth : Option GitCred) : Option String :=
  auth.map eagerAuthValue

/-- Outcome of the onAuth hook: either a credential object handed to the
    engine, or a cancellation. -/
inductive AuthOutcome
  | creds (auth : GitCred)
  | cancel
deriving DecidableEq

/-- The onAuth hook shared by clone, push and pull: return any cached
    credential immediately; otherwise ask for confirmation, and when
    confirmed return the two prompt results (null prompts included) as the
    credential; only a declined confirmation cancels.  The interactive
    confirm and prompt results are passed in as the environment. -/
def onAuthModel (cached : Option GitCred) (confirmed : Bool)
    (promptUser promptPass : Option String) : AuthOutcome :=
  match cached with
  | some auth => .creds auth
  | none =>
    if confirmed then .creds { username := promptUser, password := promptPass }
    else .cancel

/-- Local repository configuration, modelled as key/value pairs as read by
    the protocol engine getConfig. -/
def getConfig (config : List (String × String)) (key : String) : Option String :=
  config.lookup key

/-- Caller-visible outcome of gitPull up to the protocol-engine call: either
    the early failure thrown before any network activity, or the invocation
    of the engine pull with single-branch semantics, the proxy endpoint and
    the headers built so far. -/
inductive PullOutcome
  | failure (msg : String)
  | enginePull (singleBranch : Bool) (corsProxy : String)
      (headers : List (String × String))
deriving DecidableEq

/-- gitPull from the source: read remote.origin.url from the repository
    configuration; when it is absent (or empty, which JavaScript treats as
    falsy too) throw "No remote repository found" before any engine call;
    otherwise look up a cached credential for the remote URL, attach an
    eager Basic authorization header when one is found, and invoke the
    engine pull with singleBranch and the same-origin proxy. -/
def gitPullModel (config : List (String × String))
    (cookies : String → Option String) : PullOutcome :=
  let baseHeaders := [("User-Agent", "bolt.diy")]
  match getConfig config "remote.origin.url" with
  | none => .failure "No remote repository found"
  | some remoteUrl =>
    if remoteUrl = "" then .failure "No remote repository found"
    else
      match lookupSavedPassword cookies remoteUrl with
      | some auth =>
        .enginePull true "/api/git-proxy"
          (baseHeaders ++ [("Authorization", eagerAuthValue auth)])
      | none => .enginePull true "/api/git-proxy" baseHeaders

/-- C1 counterexample: on the empty from-path the implementation returns "."
    while the algorithm stated by the claim yields "a", so the claimed
    equality does not hold for every pair of path strings. -/
theorem c1_counterexample :
    relative "" "a" = "." ∧ relativeSpec "" "a" = "a" ∧
      relative "" "a" ≠ relativeSpec "" "a" := by
  refine ⟨by decide, by decide, by decide⟩

/-- C1 amended: for every pair of non-empty path strings, relative(from, to)
    equals the result of the normalize/common-prefix/dot-dot algorithm of
    the claim (when either input is empty the implementation instead returns
    "." immediately); in particular relative("/a/b", "/a/b/c") = "c". -/
theorem c1_amended (f t : String) (hf : f ≠ "") (ht : t ≠ "") :
    relative f t = relativeSpec f t ∧ relative "/a/b" "/a/b/c" = "c" := by
  constructor
  · simp [relative, relativeSpec, hf, ht]
  · decide

/-- C1 witness: the amended theorem applied at the concrete pair from the
    claim. -/
theorem c1_witness :
    relative "/a/b" "/a/b/c" = relativeSpec "/a/b" "/a/b/c" ∧
      relative "/a/b" "/a/b/c" = "c" :=
  c1_amended "/a/b" "/a/b/c" (by decide) (by decide)

/-- Overwriting the entries at a key leaves the key sequence unchanged. -/
theorem ledgerKeys_overwrite (l : Ledger) (k : String) (v : LedgerEntry) :
    ledgerKeys (l.map (fun e => if e.1 = k then (k, v) else e)) = ledgerKeys l := by
  unfold ledgerKeys
  rw [List.map_map]
  refine List.map_congr_left (fun e _ => ?_)
  by_cases hk : e.1 = k
  · simp [hk]
  · simp [hk]

/-- Lookup after an in-place overwrite finds the new value. -/
theorem lookup_map_overwrite (l : Ledger) (k : String) (v : LedgerEntry)
    (h : k ∈ ledgerKeys l) :
    ledgerLookup (l.map (fun e => if e.1 = k then (k, v) else e)) k = some v := by
  induction l with
  | nil => simp [ledgerKeys] at h
  | cons a t ih =>
    obtain ⟨a1, a2⟩ := a
    simp only [List.map_cons]
    by_cases hk : a1 = k
    · rw [show (if ((a1, a2) : String × LedgerEntry).1 = k then (k, v) else (a1, a2))
            = (k, v) from if_pos hk]
      simp [ledgerLookup]
    · rw [show (if ((a1, a2) : String × LedgerEntry).1 = k then (k, v) else (a1, a2))
            = (a1, a2) from if_neg hk]
      have h' : k ∈ ledgerKeys t := by
        simp [ledgerKeys] at h
        rcases h with h | h
        · exact absurd h.symm hk
        · simpa [ledgerKeys] using h
      have hk' : ¬ k = a1 := fun hh => hk hh.symm
      simp only [ledgerLookup]
      rw [if_neg hk']
      exact ih h'

/-- Lookup after appending a fresh key finds the appended value. -/
theorem lookup_append_fresh (l : Ledger) (k : String) (v : LedgerEntry)
    (h : k ∉ ledgerKeys l) :
    ledgerLookup (l ++ [(k, v)]) k = some v := by
  induction l with
  | nil => simp [ledgerLookup]
  | cons a t ih =>
    obtain ⟨a1, a2⟩ := a
    simp [ledgerKeys] at h
    simp only [List.cons_append, ledgerLookup]
    rw [if_neg h.1]
    exact ih (by simpa [ledgerKeys] using h.2)

/-- ledgerInsert always stores the inserted value under the key. -/
theorem ledgerLookup_insert (l : Ledger) (k : String) (v : LedgerEntry) :
    ledgerLookup (ledgerInsert l k v) k = some v := by
  unfold ledgerInsert
  by_cases hmem : k ∈ ledgerKeys l
  · rw [if_pos hmem]
    exact lookup_map_overwrite l k v hmem
  · rw [if_neg hmem]
    exact lookup_append_fresh l k v hmem

/-- ledgerInsert over a ledger with pairwise-distinct keys leaves exactly
    one entry under the inserted key. -/
theorem countKey_insert (l : Ledger) (k : String) (v : LedgerEntry)
    (h : (ledgerKeys l).Nodup) : countKey (ledgerInsert l k v) k = 1 := by
  unfold countKey ledgerInsert
  by_cases hmem : k ∈ ledgerKeys l
  · rw [if_pos hmem, ledgerKeys_overwrite]
    exact List.count_eq_one_of_mem h hmem
  · rw [if_neg hmem]
    have hkeys : ledgerKeys (l ++ [(k, v)]) = ledgerKeys l ++ [k] := by
      simp [ledgerKeys]
    rw [hkeys, List.count_append]
    simp [List.count_eq_zero.mpr hmem]

/-- ledgerInsert preserves distinctness of the keys. -/
theorem ledgerKeys_insert_nodup (l : Ledger) (k : String) (v : LedgerEntry)
    (h : (ledgerKeys l).Nodup) : (ledgerKeys (ledgerInsert l k v)).Nodup := by
  unfold ledgerInsert
  by_cases hmem : k ∈ ledgerKeys l
  · rw [if_pos hmem, ledgerKeys_overwrite]
    exact h
  · rw [if_neg hmem]
    have hkeys : ledgerKeys (l ++ [(k, v)]) = ledgerKeys l ++ [k] := by
      simp [ledgerKeys]
    rw [hkeys]
    simp [List.nodup_append, h, hmem]

/-- Adapter operations other than writeFile never touch the ledger. -/
theorem applyFsOp_not_write (workdir : String) (l : Ledger) (op : FsOp)
    (h : op.isWriteFile = false) : applyFsOp workdir l op = l := by
  cases op <;> first
    | rfl
    | simp [FsOp.isWriteFile] at h

/-- A run of write-free adapter operations leaves any ledger unchanged. -/
theorem runEngineOps_no_write (workdir : String) (ops : List FsOp) (l : Ledger)
    (h : ∀ op ∈ ops, op.isWriteFile = false) :
    runEngineOps workdir ops l = l := by
  induction ops generalizing l with
  | nil => rfl
  | cons op t ih =>
    unfold runEngineOps at ih ⊢
    rw [List.foldl_cons, applyFsOp_not_write workdir l op (h op (by simp))]
    exact ih l (fun o ho => h o (by simp [ho]))

/-- C4 counterexample: a push during which the protocol engine performs one
    writeFile through the adapter changes the ledger, so the ledger is not
    identical before and after for every sequence of adapter operations. -/
theorem c4_counterexample :
    gitPushLedger "/home/project" []
        [FsOp.writeFile "/home/project/a.txt" "data" none] ≠ ([] : Ledger) := by
  decide

/-- C4 amended: gitPush itself never resets or rewrites the WriteLedger, so
    the ledger is unchanged across a push whenever the protocol engine
    invokes no writeFile adapter operation during it; a writeFile invoked by
    the engine during the push does alter the ledger. -/
theorem c4_amended (workdir : String) (l : Ledger) (ops : List FsOp)
    (h : ∀ op ∈ ops, op.isWriteFile = false) :
    gitPushLedger workdir l ops = l :=
  runEngineOps_no_write workdir ops l h

/-- C4 witness: the amended theorem applied to a push whose engine trace is
    a single stat. -/
theorem c4_witness :
    gitPushLedger "/home/project" [("a.txt", { data := "x", encoding := none })]
        [FsOp.stat "/home/project/a.txt"]
      = [("a.txt", { data := "x", encoding := none })] :=
  c4_amended "/home/project" [("a.txt", { data := "x", encoding := none })]
    [FsOp.stat "/home/project/a.txt"] (by decide)

/-- C6 confirmed: within one clone, writing twice to the same path leaves a
    ledger whose keys are still pairwise distinct, with exactly one entry
    under that path and the later data/encoding as its value. -/
theorem c6_ledger_overwrite (workdir : String) (l : Ledger) (p d d2 : String)
    (enc enc2 : Option String) (h : (ledgerKeys l).Nodup) :
    (ledgerKeys (writeFileLedger workdir (writeFileLedger workdir l p d enc) p d2 enc2)).Nodup ∧
    countKey (writeFileLedger workdir (writeFileLedger workdir l p d enc) p d2 enc2)
        (relative workdir p) = 1 ∧
    ledgerLookup (writeFileLedger workdir (writeFileLedger workdir l p d enc) p d2 enc2)
        (relative workdir p) = some { data := d2, encoding := enc2 } := by
  unfold writeFileLedger
  have h1 := ledgerKeys_insert_nodup l (relative workdir p)
    { data := d, encoding := enc } h
  exact ⟨ledgerKeys_insert_nodup _ _ _ h1, countKey_insert _ _ _ h1,
    ledgerLookup_insert _ _ _⟩

/-- C6 witness: the theorem applied to two writes of the same file starting
    from the empty ledger. -/
theorem c6_witness :
    (ledgerKeys (writeFileLedger "/home/project"
        (writeFileLedger "/home/project" [] "/home/project/a.txt" "x" none)
        "/home/project/a.txt" "y" none)).Nodup ∧
    countKey (writeFileLedger "/home/project"
        (writeFileLedger "/home/project" [] "/home/project/a.txt" "x" none)
        "/home/project/a.txt" "y" none)
        (relative "/home/project" "/home/project/a.txt") = 1 ∧
    ledgerLookup (writeFileLedger "/home/project"
        (writeFileLedger "/home/project" [] "/home/project/a.txt" "x" none)
        "/home/project/a.txt" "y" none)
        (relative "/home/project" "/home/project/a.txt")
      = some { data := "y", encoding := none } :=
  c6_ledger_overwrite "/home/project" [] "/home/project/a.txt" "x" "y" none none
    (by decide)

/-- C7 counterexample: a clone that fails after the engine has written one
    file leaves that entry in the ledger, so a failed clone does not leave
    the ledger without entries. -/
theorem c7_counterexample :
    (gitCloneModel "/home/project" []
        [FsOp.writeFile "/home/project/README.md" "hello" none]
        false "network error").1 = .error "network error" ∧
    (gitCloneModel "/home/project" []
        [FsOp.writeFile "/home/project/README.md" "hello" none]
        false "network error").2 ≠ ([] : Ledger) := by
  refine ⟨rfl, by decide⟩

/-- C7 amended: clone resets the WriteLedger at its start (the final ledger
    is the engine trace folded over the empty ledger, independent of any
    prior ledger), and a failed clone hands the caller only the propagated
    error and never a snapshot; however, entries written before the failure
    remain in the ledger until the next clone resets it. -/
theorem c7_amended (workdir : String) (prev : Ledger) (ops : List FsOp)
    (err : String) (b : Bool) :
    (gitCloneModel workdir prev ops false err).1 = .error err ∧
    (¬ ∃ r : CloneResult, (gitCloneModel workdir prev ops false err).1 = .ok r) ∧
    (gitCloneModel workdir prev ops b err).2 = runEngineOps workdir ops [] := by
  refine ⟨rfl, ?_, ?_⟩
  · rintro ⟨r, hr⟩
    simp [gitCloneModel] at hr
  · unfold gitCloneModel
    cases b <;> rfl

/-- C2 confirmed: for every sandbox listing behavior and every path, stat
    either synthesizes its result from the parent-listing entry whose name
    matches the basename, or fails with exactly the ENOENT errno -2 stat error
    echoing the requested path; the error case covers both a missing entry
    and a failing parent listing. -/
theorem c2_stat (listDir : String → Except String (List DirEnt)) (now : Nat)
    (workdir path : String) :
    (match listDir (dirname (relative workdir path)) with
      | .error _ => statImpl listDir now workdir path = .error (enoentStatError path)
      | .ok resp =>
        match resp.find? (fun x => x.name == basename (relative workdir path) none) with
        | none => statImpl listDir now workdir path = .error (enoentStatError path)
        | some fileInfo =>
          statImpl listDir now workdir path = .ok (synthStat fileInfo now)) := by
  unfold statImpl
  cases h : listDir (dirname (relative workdir path)) with
  | error e => simp [h]
  | ok resp =>
    cases hf : resp.find? (fun x => x.name == basename (relative workdir path) none) with
    | none => simp [h, hf]
    | some fileInfo => simp [h, hf]

/-- C3 counterexample: a caller passing recursive false makes rmdir delegate
    with recursive false, so recursive true is not forced for every options
    value. -/
theorem c3_counterexample :
    (rmdirCall "/home/project" "/home/project/dir"
        (some { recursive := some false })).recursive ≠ some true := by
  decide

/-- C3 amended: rmdir delegates to the sandbox remove with recursive
    defaulting to true: the delegated flag is the caller-supplied recursive
    value when the options carry one, and true (the intended force) only
    when they do not. -/
theorem c3_amended (workdir path : String) (options : Option RmOptions) :
    (rmdirCall workdir path options).recursive
      = some ((options.bind (fun o => o.recursive)).getD true) := rfl

/-- C5 counterexample: the readlink and symlink errors carry no code
    property at all (only a message), so they are not signaled with the
    structured EINVAL/EPERM code shape the claim states. -/
theorem c5_counterexample :
    errCode (readlinkImpl "/tmp/x") ≠ some "EINVAL" ∧
    errCode (symlinkImpl "/tmp/a" "/tmp/b") ≠ some "EPERM" := by
  refine ⟨by decide, by decide⟩

/-- C5 amended: for every input, readlink fails and symlink fails — with
    plain errors whose messages are the EINVAL invalid-argument and EPERM
    operation-not-permitted texts naming the arguments, but whose
    code/errno/syscall/path properties are unset — and chmod always
    resolves successfully. -/
theorem c5_amended (path target p2 : String) (mode : Nat) :
    readlinkImpl path
      = .error { message := "EINVAL: invalid argument, readlink " ++ squote ++ path
                 ++ squote, code := none, errno := none, syscall := none, path := none } ∧
    symlinkImpl target p2
      = .error { message := "EPERM: operation not permitted, symlink " ++ squote
                 ++ target ++ squote ++ " -> " ++ squote ++ p2 ++ squote
                 code := none, errno := none, syscall := none, path := none } ∧
    chmodImpl p2 mode = .ok () :=
  ⟨rfl, rfl, rfl⟩

/-- C8 confirmed: when the repository configuration has no remote.origin.url
    entry, gitPull fails with "No remote repository found" and never reaches
    the protocol-engine pull (so no network call is made). -/
theorem c8_pull_no_remote (config : List (String × String))
    (cookies : String → Option String)
    (h : getConfig config "remote.origin.url" = none) :
    gitPullModel config cookies = .failure "No remote repository found" ∧
    ∀ sb cp hs, gitPullModel config cookies ≠ .enginePull sb cp hs := by
  constructor
  · unfold gitPullModel
    rw [h]
  · intro sb cp hs hcontra
    unfold gitPullModel at hcontra
    rw [h] at hcontra
    exact PullOutcome.noConfusion hcontra

/-- C8 witness: the theorem applied to the empty configuration and an empty
    cookie store. -/
theorem c8_witness :
    gitPullModel [] (fun _ => none) = .failure "No remote repository found" ∧
    ∀ sb cp hs, gitPullModel [] (fun _ => none) ≠ .enginePull sb cp hs :=
  c8_pull_no_remote [] (fun _ => none) rfl

/-- C9 confirmed: when the cookie for the URL domain holds a non-empty value
    that parses as a JSON object without username and password fields (such
    as the two-character empty-object string), lookupSavedPassword returns a
    found credential whose fields are both undefined rather than none; the
    onAuth hook then hands exactly that credential to the engine without
    prompting, and the eager Basic authorization header is computed from
    it. -/
theorem c9_empty_json_cred (cookies : String → Option String) (url s : String)
    (fields : List (String × String)) (confirmed : Bool)
    (promptUser promptPass : Option String)
    (hcookie : cookies ("git:" ++ jsStr (urlDomain url)) = some s)
    (hne : s ≠ "")
    (hparse : jsonParseObj s = some fields)
    (huser : fields.lookup "username" = none)
    (hpass : fields.lookup "password" = none) :
    lookupSavedPassword cookies url = some { username := none, password := none } ∧
    onAuthModel (lookupSavedPassword cookies url) confirmed promptUser promptPass
      = .creds { username := none, password := none } ∧
    (eagerAuthHeader (lookupSavedPassword cookies url)).isSome = true := by
  have hlook : lookupSavedPassword cookies url
      = some { username := none, password := none } := by
    simp only [lookupSavedPassword, hcookie, if_neg hne, hparse, huser, hpass]
  refine ⟨hlook, ?_, ?_⟩
  · rw [hlook]
    rfl
  · rw [hlook]
    rfl

/-- C9 witness: the theorem applied to a store holding the empty JSON object
    for the host of a concrete repository URL. -/
theorem c9_witness :
    lookupSavedPassword
        (fun k => if k = "git:example.com" then some "{}" else none)
        "https://example.com/org/repo.git"
      = some { username := none, password := none } ∧
    onAuthModel (lookupSavedPassword
        (fun k => if k = "git:example.com" then some "{}" else none)
        "https://example.com/org/repo.git") true none none
      = .creds { username := none, password := none } ∧
    (eagerAuthHeader (lookupSavedPassword
        (fun k => if k = "git:example.com" then some "{}" else none)
        "https://example.com/org/repo.git")).isSome = true :=
  c9_empty_json_cred
    (fun k => if k = "git:example.com" then some "{}" else none)
    "https://example.com/org/repo.git" "{}" [] true none none
    (by decide) (by decide) (by decide) rfl rfl

/-- C10 confirmed: the onAuth hook cancels exactly when there is no cached
    credential and the user declines the confirmation; when the user
    confirms, the prompt results — including null results from cancelled or
    empty prompts — are returned as the credential and the operation
    proceeds with them. -/
theorem c10_onauth_cancel (cached : Option GitCred) (confirmed : Bool)
    (promptUser promptPass : Option String) :
    (onAuthModel cached confirmed promptUser promptPass = .cancel
      ↔ cached = none ∧ confirmed = false) ∧
    onAuthModel none true promptUser promptPass
      = .creds { username := promptUser, password := promptPass } := by
  constructor
  · cases cached with
    | some auth => cases confirmed <;> simp [onAuthModel]
    | none => cases confirmed <;> simp [onAuthModel]
  · rfl
